import Mathlib

/-!
Verification development for the `weathergraphnet` repository
(`src/weathergraphnet/train_cnn.py` and `src/weathergraphnet/utils.py`).

Tensors are modelled shallowly: a 4-D tensor is a shape `(n, c, h, w)`
together with a total value function on natural-number indices (only the
in-range part is meaningful), with rational values standing in for the
floating-point entries.  Python slicing, PyTorch shape rules, xarray
coarsening, and the list/ndarray manipulations of the repository are
translated operation by operation.
-/

set_option maxHeartbeats 1000000

/-- Shallow model of a 4-D torch tensor: shape fields `n, c, h, w`
(batch, channel, height, width) and a value function on indices. -/
structure Tensor4 where
  n : Nat
  c : Nat
  h : Nat
  w : Nat
  val : Nat → Nat → Nat → Nat → ℚ

namespace UNet

/-- Python slice `t[:, :, lo:hi, :]` on the height dimension (axis 2),
for nonnegative `lo`, `hi`: the kept rows are `min lo t.h ≤ i < min hi t.h`. -/
def sliceH (t : Tensor4) (lo hi : Nat) : Tensor4 :=
  { t with
    h := min hi t.h - min lo t.h
    val := fun a b i j => t.val a b (min lo t.h + i) j }

/-- Python slice `t[:, :, :, lo:hi]` on the width dimension (axis 3). -/
def sliceW (t : Tensor4) (lo hi : Nat) : Tensor4 :=
  { t with
    w := min hi t.w - min lo t.w
    val := fun a b i j => t.val a b i (min lo t.w + j) }

/-- Model of `UNet.crop` (train_cnn.py lines 126-143): computes the height
and width differences, slices `encoder_layer` by `diff // 2` on each side of
each spatial axis, then removes one extra leading column (resp. row) when
`diffX` (resp. `diffY`) is odd. -/
def crop (encoder_layer decoder_layer : Tensor4) : Tensor4 :=
  let diffY := encoder_layer.h - decoder_layer.h
  let diffX := encoder_layer.w - decoder_layer.w
  let e1 := sliceW
    (sliceH encoder_layer (diffY / 2) (encoder_layer.h - diffY / 2))
    (diffX / 2) (encoder_layer.w - diffX / 2)
  let e2 := if diffX % 2 = 1 then sliceW e1 1 e1.w else e1
  let e3 := if diffY % 2 = 1 then sliceH e2 1 e2.h else e2
  e3

end UNet

/-- Shape of a 4-D tensor: batch, channel, height, width sizes. -/
structure Shape4 where
  n : Nat
  c : Nat
  h : Nat
  w : Nat
deriving DecidableEq

namespace UNet

/-- Output shape of `nn.Conv2d(cin, cout, kernel_size=k, padding=p)` at
stride 1: the input channel count must match and the output must be
nonempty (PyTorch raises otherwise). -/
def conv2dShape (cin cout k p : Nat) (s : Shape4) : Option Shape4 :=
  if s.c = cin ∧ k ≤ s.h + 2 * p ∧ k ≤ s.w + 2 * p then
    some ⟨s.n, cout, s.h + 2 * p - k + 1, s.w + 2 * p - k + 1⟩
  else none

/-- Output shape of `nn.MaxPool2d(kernel_size=k, stride=st)` with no
padding: the window must fit inside the input. -/
def maxPool2dShape (k st : Nat) (s : Shape4) : Option Shape4 :=
  if k ≤ s.h ∧ k ≤ s.w then
    some ⟨s.n, s.c, (s.h - k) / st + 1, (s.w - k) / st + 1⟩
  else none

/-- Output shape of `nn.ConvTranspose2d(cin, cout, kernel_size=k,
stride=st)`: spatial size `(x - 1) * st + k`, requiring a nonempty input
and a matching channel count. -/
def convTranspose2dShape (cin cout k st : Nat) (s : Shape4) : Option Shape4 :=
  if s.c = cin ∧ 1 ≤ s.h ∧ 1 ≤ s.w then
    some ⟨s.n, cout, (s.h - 1) * st + k, (s.w - 1) * st + k⟩
  else none

/-- Shape of `torch.cat([a, b], dim=1)`: channel counts add and the other
three sizes must agree. -/
def catShape (a b : Shape4) : Option Shape4 :=
  if a.n = b.n ∧ a.h = b.h ∧ a.w = b.w then
    some ⟨a.n, a.c + b.c, a.h, a.w⟩
  else none

/-- Size part of `UNet.crop`, obtained by running `crop` on tensors with
the given shapes. -/
def cropShape (e d : Shape4) : Shape4 :=
  let t := crop ⟨e.n, e.c, e.h, e.w, fun _ _ _ _ => 0⟩
    ⟨d.n, d.c, d.h, d.w, fun _ _ _ _ => 0⟩
  ⟨t.n, t.c, t.h, t.w⟩

/-- Shape of `F.pad(out, (p, 0, 0, 0), mode='replicate')`: pad the last
(width) dimension on the left by `p`. -/
def padLastLeftShape (p : Nat) (s : Shape4) : Shape4 :=
  ⟨s.n, s.c, s.h, s.w + p⟩

/-- Encoder part of the shape-level model of `UNet.forward`
(train_cnn.py lines 96-100): the four feature maps `x1, x2, x3, x4`.
ReLU activations preserve shape and are omitted. -/
def encoderShape (channels_in : Nat) (x : Shape4) :
    Option (Shape4 × Shape4 × Shape4 × Shape4) :=
  (conv2dShape channels_in 64 3 1 x).bind fun x1 =>
  (conv2dShape 64 128 3 1 x1).bind fun x2a =>
  (maxPool2dShape 2 2 x2a).bind fun x2 =>
  (conv2dShape 128 256 3 1 x2).bind fun x3a =>
  (maxPool2dShape 2 2 x3a).bind fun x3 =>
  (conv2dShape 256 512 3 1 x3).bind fun x4a =>
  (maxPool2dShape 2 2 x4a).bind fun x4 =>
  some (x1, x2, x3, x4)

/-- One decoder stage of the shape-level model of `UNet.forward`
(train_cnn.py lines 103-118): transpose-convolve the incoming map, crop
the skip connection when its shape differs (recording the increment of
the `cropped` counter), concatenate on the channel dimension and
convolve.  The result pairs the stage output shape with the counter
increment. -/
def decoderStageShape (upcin upcout ccin ccout : Nat) (skip y_in : Shape4) :
    Option (Shape4 × Nat) :=
  (convTranspose2dShape upcin upcout 2 2 y_in).bind fun y =>
  let p := if y ≠ skip then (cropShape skip y, 1) else (skip, 0)
  (catShape p.1 y).bind fun cat =>
  (conv2dShape ccin ccout 3 1 cat).bind fun yc =>
  some (yc, p.2)

/-- Shape-level model of `UNet.forward` (train_cnn.py lines 95-124) with
the layers of `UNet.__init__` (lines 63-93): the encoder, three decoder
stages with their crop tests, the 1x1 output convolution, and the final
`F.pad(out, (cropped, 0, 0, 0), mode='replicate')`.  The result is the
output shape together with the final value of the `cropped` counter. -/
def forwardShape (channels_in channels_out : Nat) (x : Shape4) :
    Option (Shape4 × Nat) :=
  (encoderShape channels_in x).bind fun e =>
  (decoderStageShape 512 256 512 256 e.2.2.1 e.2.2.2).bind fun s1 =>
  (decoderStageShape 256 128 256 128 e.2.1 s1.1).bind fun s2 =>
  (decoderStageShape 128 64 128 64 e.1 s2.1).bind fun s3 =>
  (conv2dShape 64 channels_out 1 0 s3.1).bind fun out =>
  some (padLastLeftShape (s1.2 + s2.2 + s3.2) out, s1.2 + s2.2 + s3.2)

end UNet

/-- Concrete encoder layer used to instantiate the crop theorems:
shape (2, 3, 5, 4) with distinguishable entries. -/
def cropEncEx : Tensor4 :=
  ⟨2, 3, 5, 4, fun a b i j => (a + 2 * b + 3 * i + 5 * j : ℚ)⟩

/-- Concrete decoder layer of shape (7, 9, 3, 2) used to instantiate the
crop theorems. -/
def cropDecEx : Tensor4 := ⟨7, 9, 3, 2, fun _ _ _ _ => 0⟩

/-- The crop of `e` to `d` is symmetric: for some margins `kY`, `kX` the
kept window removes exactly `kY` rows from the leading and `kY` rows from
the trailing side of the height axis, and likewise `kX` columns on the
width axis. -/
def CropSymmetricAt (e d : Tensor4) : Prop :=
  ∃ kY kX : Nat,
    e.h = d.h + 2 * kY ∧ e.w = d.w + 2 * kX ∧
    (UNet.crop e d).h = d.h ∧ (UNet.crop e d).w = d.w ∧
    ∀ a b i j, (UNet.crop e d).val a b i j = e.val a b (kY + i) (kX + j)

/-- Encoder layer of shape (1, 1, 3, 2) with an odd height difference to
`cropDecOdd`, on which the crop is not symmetric. -/
def cropEncOdd : Tensor4 := ⟨1, 1, 3, 2, fun _ _ i j => (2 * i + j : ℚ)⟩

/-- Decoder layer of shape (1, 1, 2, 2) for the asymmetry counterexample. -/
def cropDecOdd : Tensor4 := ⟨1, 1, 2, 2, fun _ _ _ _ => 0⟩

/-- Shallow model of the xarray data cube used throughout the repository,
after `load_data` transposes it to dimension order
(time, member, height, ncells): the four dimension sizes and a value
function on indices, with rational values. -/
structure GridData where
  time : Nat
  member : Nat
  height : Nat
  ncells : Nat
  val : Nat → Nat → Nat → Nat → ℚ

namespace TrainCnn

/-- Model of `train_cnn.downscale_data` (train_cnn.py lines 322-336):
`data.coarsen(height=factor, ncells=factor).mean()`.  xarray's default
`boundary="exact"` raises unless `factor` divides both coarsened sizes
(modelled as `none`); each output cell is the mean of its
`factor x factor` window, the window sum divided by `factor * factor`. -/
def downscale_data (data : GridData) (factor : Nat) : Option GridData :=
  if factor ∣ data.height ∧ factor ∣ data.ncells then
    some { time := data.time
           member := data.member
           height := data.height / factor
           ncells := data.ncells / factor
           val := fun t m i j =>
             (∑ di ∈ Finset.range factor, ∑ dj ∈ Finset.range factor,
               data.val t m (i * factor + di) (j * factor + dj)) /
               ((factor : ℚ) * (factor : ℚ)) }
  else none

end TrainCnn

namespace Utils

/-- Model of `np.mean` on the flattened window: the sum of the elements
divided by how many there are. -/
def np_mean (l : List ℚ) : ℚ := l.sum / (l.length : ℚ)

/-- The entries of the `factor x factor` coarsening window whose block
position is `(i, j)`, in row-major order. -/
def windowVals (data : GridData) (factor t m i j : Nat) : List ℚ :=
  (List.range factor).flatMap fun di =>
    (List.range factor).map fun dj =>
      data.val t m (i * factor + di) (j * factor + dj)

/-- Model of `utils.downscale_data` (utils.py lines 364-380):
`data.coarsen(height=factor, ncells=factor).reduce(np.mean)`, applying
`np.mean` to each window. -/
def downscale_data (data : GridData) (factor : Nat) : Option GridData :=
  if factor ∣ data.height ∧ factor ∣ data.ncells then
    some { time := data.time
           member := data.member
           height := data.height / factor
           ncells := data.ncells / factor
           val := fun t m i j => np_mean (windowVals data factor t m i j) }
  else none

/-- Model of `utils.get_runs` (utils.py lines 383-399).  The result of
the single `mlflow.search_runs` call is passed in as the list
`search_result` (the function's declared return type); the function
raises `ValueError` exactly on an empty result and otherwise returns the
search result unchanged. -/
def get_runs {α : Type} (experiment_name : String) (search_result : List α) :
    Except String (List α) :=
  if search_result.isEmpty then
    Except.error ("No runs found in experiment: " ++ experiment_name)
  else
    Except.ok search_result

/-- The part of the JSON configuration file that
`load_config_and_data` inspects: the `"coarsen"` value. -/
structure Config where
  coarsen : Int

/-- Model of `utils.load_config_and_data` (utils.py lines 422-445) after
`load_data` has produced the two datasets: when `config["coarsen"] > 1`
both datasets are coarsened with `downscale_data` (test first, then
train, as in the source), otherwise they are returned as loaded. -/
def load_config_and_data (config : Config)
    (data_train data_test : GridData) :
    Option (Config × GridData × GridData) :=
  if config.coarsen > 1 then
    (downscale_data data_test config.coarsen.toNat).bind fun dte =>
    (downscale_data data_train config.coarsen.toNat).bind fun dtr =>
    some (config, dtr, dte)
  else some (config, data_train, data_test)

end Utils

/-- Arithmetic mean of the `factor x factor` block of input cells at
block position `(i, j)`, written independently of the coarsening code:
the sum over the block's index set divided by the cardinality of that
set. -/
def blockMean (data : GridData) (factor t m i j : Nat) : ℚ :=
  (∑ p ∈ Finset.range factor ×ˢ Finset.range factor,
    data.val t m (i * factor + p.1) (j * factor + p.2)) /
    (((Finset.range factor ×ˢ Finset.range factor).card : ℚ))

/-- Concrete 1 x 1 x 2 x 2 dataset used to instantiate the coarsening
theorems. -/
def gridEx : GridData := ⟨1, 1, 2, 2, fun _ _ i j => (2 * i + j : ℚ)⟩

/-- Coarsened version of `gridEx` with factor 2: a single cell holding
the window mean. -/
def gridExDs : GridData :=
  ⟨1, 1, 1, 1, fun t m i j => Utils.np_mean (Utils.windowVals gridEx 2 t m i j)⟩

/-- Model of `MyDataset.__init__` (train_cnn.py lines 196-211; the same
splitting logic appears in utils.py lines 214-237): `np.random.shuffle`
permutes `np.arange(num_members)` in place — the shuffled array enters
the model as the list `member_indices` — and the Python slices
`[:split]` and `[split:]` become `take` and `drop`. -/
structure MyDataset where
  train_indices : List Nat
  test_indices : List Nat

/-- The index-splitting part of `MyDataset.__init__`. -/
def MyDataset.init (member_indices : List Nat) (split : Nat) : MyDataset :=
  { train_indices := member_indices.take split
    test_indices := member_indices.drop split }

/-- In-range index quadruples of a 4-D tensor. -/
def Tensor4.idx (t : Tensor4) : Finset (Nat × Nat × Nat × Nat) :=
  Finset.range t.n ×ˢ Finset.range t.c ×ˢ Finset.range t.h ×ˢ
    Finset.range t.w

/-- Entry of a 4-D tensor at an index quadruple. -/
def Tensor4.vAt (t : Tensor4) (p : Nat × Nat × Nat × Nat) : ℚ :=
  t.val p.1 p.2.1 p.2.2.1 p.2.2.2

/-- `torch.sum(t)`: sum of all in-range entries. -/
def torchSum (t : Tensor4) : ℚ := ∑ p ∈ t.idx, t.vAt p

/-- `torch.mean(t)`: sum of all entries divided by the element count. -/
def torchMean (t : Tensor4) : ℚ :=
  torchSum t / ((t.n : ℚ) * (t.c : ℚ) * (t.h : ℚ) * (t.w : ℚ))

/-- Elementwise `outputs - target` on tensors of matching shape. -/
def tSub (x y : Tensor4) : Tensor4 :=
  { x with val := fun a b i j => x.val a b i j - y.val a b i j }

/-- Elementwise `torch.abs`. -/
def tAbs (x : Tensor4) : Tensor4 :=
  { x with val := fun a b i j => |x.val a b i j| }

/-- Elementwise product, as in `loss * mask`. -/
def tMul (x y : Tensor4) : Tensor4 :=
  { x with val := fun a b i j => x.val a b i j * y.val a b i j }

/-- Shallow model of a 3-D torch tensor (a 4-D tensor with the ensemble
dimension reduced away). -/
structure Tensor3 where
  n : Nat
  h : Nat
  w : Nat
  val : Nat → Nat → Nat → ℚ

/-- `torch.var(t, dim=1)` with torch's default unbiased normalization:
the sample variance over the ensemble dimension at index 1, dividing by
`count - 1`. -/
def torchVarDim1 (t : Tensor4) : Tensor3 :=
  { n := t.n
    h := t.h
    w := t.w
    val := fun a i j =>
      (∑ b ∈ Finset.range t.c,
        (t.val a b i j -
          (∑ b2 ∈ Finset.range t.c, t.val a b2 i j) / (t.c : ℚ)) ^ 2) /
        ((t.c : ℚ) - 1) }

/-- `torch.mean` of a 3-D tensor. -/
def torchMean3 (t : Tensor3) : ℚ :=
  (∑ a ∈ Finset.range t.n, ∑ i ∈ Finset.range t.h,
    ∑ j ∈ Finset.range t.w, t.val a i j) /
    ((t.n : ℚ) * (t.h : ℚ) * (t.w : ℚ))

/-- Model of `EnsembleVarianceRegularizationLoss.forward` (train_cnn.py
lines 248-257; identically utils.py lines 103-144), with regularization
strength `alpha`: the L1 term, the ensemble variance along dimension 1,
and the negated regularization term added to the L1 term. -/
def EnsembleVarianceRegularizationLoss.forward (alpha : ℚ)
    (outputs target : Tensor4) : ℚ :=
  let l1_loss := torchMean (tAbs (tSub outputs target))
  let ensemble_variance := torchVarDim1 outputs
  let regularization_loss := -alpha * torchMean3 ensemble_variance
  l1_loss + regularization_loss

/-- Model of `MaskedLoss.forward` (train_cnn.py lines 260-277;
identically utils.py lines 147-196): the configured elementwise loss,
multiplied by the mask, summed, and divided by the mask sum. -/
def MaskedLoss.forward (loss_fn : Tensor4 → Tensor4 → Tensor4)
    (outputs target mask : Tensor4) : ℚ :=
  let loss := loss_fn outputs target
  let masked_loss := tMul loss mask
  torchSum masked_loss / torchSum mask

/-- Mask of shape (1, 1, 1, 2) holding entries 1 and -1: it has a
nonzero entry but `torch.sum` of it is 0. -/
def maskPm : Tensor4 := ⟨1, 1, 1, 2, fun _ _ _ j => if j = 0 then 1 else -1⟩

/-- Elementwise L1 loss `|outputs - target|`, the masked-loss example
loss function. -/
def lossFnEx : Tensor4 → Tensor4 → Tensor4 := fun o t => tAbs (tSub o t)

/-- Concrete outputs tensor of shape (1, 1, 1, 2). -/
def outEx : Tensor4 := ⟨1, 1, 1, 2, fun _ _ _ j => (j : ℚ) + 3⟩

/-- Concrete target tensor of shape (1, 1, 1, 2). -/
def tgtEx : Tensor4 := ⟨1, 1, 1, 2, fun _ _ _ _ => 1⟩

/-- Concrete 0/1 indicator mask of shape (1, 1, 1, 2) masking the second
cell. -/
def maskEx : Tensor4 := ⟨1, 1, 1, 2, fun _ _ _ j => if j = 0 then 1 else 0⟩

namespace UNet

lemma crop_n (e d : Tensor4) : (crop e d).n = e.n := by
  unfold crop sliceH sliceW
  dsimp only
  split <;> split <;> rfl

lemma crop_c (e d : Tensor4) : (crop e d).c = e.c := by
  unfold crop sliceH sliceW
  dsimp only
  split <;> split <;> rfl

lemma crop_h (e d : Tensor4) (hh : d.h ≤ e.h) : (crop e d).h = d.h := by
  unfold crop sliceH sliceW
  dsimp only
  split <;> split <;> dsimp only <;> omega

lemma crop_w (e d : Tensor4) (hw : d.w ≤ e.w) : (crop e d).w = d.w := by
  unfold crop sliceH sliceW
  dsimp only
  split <;> split <;> dsimp only <;> omega

lemma crop_val (e d : Tensor4) (hh : d.h ≤ e.h) (hw : d.w ≤ e.w)
    (a b i j : Nat) :
    (crop e d).val a b i j =
      e.val a b ((e.h - d.h) / 2 + (e.h - d.h) % 2 + i)
        ((e.w - d.w) / 2 + (e.w - d.w) % 2 + j) := by
  unfold crop sliceH sliceW
  dsimp only
  split <;> split <;> dsimp only <;>
    (congr 1 <;> omega)

lemma conv3x3Shape (cin cout : Nat) (s : Shape4) (hc : s.c = cin)
    (hh : 1 ≤ s.h) (hw : 1 ≤ s.w) :
    conv2dShape cin cout 3 1 s = some ⟨s.n, cout, s.h, s.w⟩ := by
  unfold conv2dShape
  rw [if_pos ⟨hc, by omega, by omega⟩]
  simp only [Option.some.injEq, Shape4.mk.injEq, true_and, and_true]
  omega

lemma conv1x1Shape (cin cout : Nat) (s : Shape4) (hc : s.c = cin)
    (hh : 1 ≤ s.h) (hw : 1 ≤ s.w) :
    conv2dShape cin cout 1 0 s = some ⟨s.n, cout, s.h, s.w⟩ := by
  unfold conv2dShape
  rw [if_pos ⟨hc, by omega, by omega⟩]
  simp only [Option.some.injEq, Shape4.mk.injEq, true_and, and_true]
  omega

lemma pool2Shape (s : Shape4) (t u : Nat) (hh : s.h = 2 * t)
    (hw : s.w = 2 * u) (ht : 1 ≤ t) (hu : 1 ≤ u) :
    maxPool2dShape 2 2 s = some ⟨s.n, s.c, t, u⟩ := by
  unfold maxPool2dShape
  rw [if_pos ⟨by omega, by omega⟩]
  simp only [Option.some.injEq, Shape4.mk.injEq, true_and, and_true]
  omega

lemma upconv2Shape (cin cout : Nat) (s : Shape4) (t u : Nat)
    (hc : s.c = cin) (hh : t = 2 * s.h) (hw : u = 2 * s.w)
    (h1 : 1 ≤ s.h) (h2 : 1 ≤ s.w) :
    convTranspose2dShape cin cout 2 2 s = some ⟨s.n, cout, t, u⟩ := by
  unfold convTranspose2dShape
  rw [if_pos ⟨hc, h1, h2⟩]
  simp only [Option.some.injEq, Shape4.mk.injEq, true_and, and_true]
  omega

lemma catShape_pos (a b : Shape4) (hn : a.n = b.n) (hh : a.h = b.h)
    (hw : a.w = b.w) :
    catShape a b = some ⟨a.n, a.c + b.c, a.h, a.w⟩ := by
  unfold catShape
  rw [if_pos ⟨hn, hh, hw⟩]

end UNet

/-- C1: for every pair of 4-D tensors whose spatial sizes satisfy
encoder height ≥ decoder height and encoder width ≥ decoder width,
`UNet.crop` returns a tensor with the batch and channel sizes of
`encoder_layer` and with spatial sizes exactly those of `decoder_layer`. -/
theorem crop_matches_decoder_shape (e d : Tensor4)
    (hh : d.h ≤ e.h) (hw : d.w ≤ e.w) :
    (UNet.crop e d).n = e.n ∧ (UNet.crop e d).c = e.c ∧
    (UNet.crop e d).h = d.h ∧ (UNet.crop e d).w = d.w :=
  ⟨UNet.crop_n e d, UNet.crop_c e d, UNet.crop_h e d hh, UNet.crop_w e d hw⟩

/-- C1 witness: the crop shape theorem instantiated at the concrete pair
`cropEncEx`, `cropDecEx`. -/
theorem crop_matches_decoder_shape_witness :
    (UNet.crop cropEncEx cropDecEx).n = cropEncEx.n ∧
    (UNet.crop cropEncEx cropDecEx).c = cropEncEx.c ∧
    (UNet.crop cropEncEx cropDecEx).h = cropDecEx.h ∧
    (UNet.crop cropEncEx cropDecEx).w = cropDecEx.w :=
  crop_matches_decoder_shape cropEncEx cropDecEx (by decide) (by decide)

/-- C2 counterexample: for the encoder layer of height 3 and the decoder
layer of height 2 (an odd difference), the claim's hypotheses hold but the
crop is not symmetric: no equal number of rows can be removed from both
sides, and `UNet.crop` removes one row from the leading side only. -/
theorem crop_not_symmetric_counterexample :
    cropDecOdd.h ≤ cropEncOdd.h ∧ cropDecOdd.w ≤ cropEncOdd.w ∧
    ¬ CropSymmetricAt cropEncOdd cropDecOdd := by
  refine ⟨by decide, by decide, ?_⟩
  rintro ⟨kY, kX, hY, -⟩
  simp only [cropEncOdd, cropDecOdd] at hY
  omega

/-- C2 amended: along each spatial axis, `UNet.crop` removes
`diff / 2 + diff % 2` cells from the leading side and `diff / 2` cells from
the trailing side of `encoder_layer`, where `diff` is the encoder-minus-
decoder size difference on that axis; the two sides are equal exactly when
`diff` is even (for odd `diff` the leading side loses one more). -/
theorem crop_offsets (e d : Tensor4) (hh : d.h ≤ e.h) (hw : d.w ≤ e.w) :
    (UNet.crop e d).h = d.h ∧ (UNet.crop e d).w = d.w ∧
    ∀ a b i j, (UNet.crop e d).val a b i j =
      e.val a b ((e.h - d.h) / 2 + (e.h - d.h) % 2 + i)
        ((e.w - d.w) / 2 + (e.w - d.w) % 2 + j) :=
  ⟨UNet.crop_h e d hh, UNet.crop_w e d hw, UNet.crop_val e d hh hw⟩

/-- C2 witness: the crop offset theorem instantiated at the concrete pair
`cropEncEx`, `cropDecEx`. -/
theorem crop_offsets_witness :
    (UNet.crop cropEncEx cropDecEx).h = cropDecEx.h ∧
    (UNet.crop cropEncEx cropDecEx).w = cropDecEx.w ∧
    ∀ a b i j, (UNet.crop cropEncEx cropDecEx).val a b i j =
      cropEncEx.val a b
        ((cropEncEx.h - cropDecEx.h) / 2 + (cropEncEx.h - cropDecEx.h) % 2 + i)
        ((cropEncEx.w - cropDecEx.w) / 2 + (cropEncEx.w - cropDecEx.w) % 2 + j) :=
  crop_offsets cropEncEx cropDecEx (by decide) (by decide)

/-- C3: on an input of shape `(N, channels_in, 8a, 8b)` with `a, b ≥ 1`
(spatial sizes divisible by 8), `UNet.forward` produces a tensor of shape
`(N, channels_out, 8a, 8b)` and the `cropped` counter stays 0: no skip
connection is cropped and no replicate padding is added. -/
theorem unet_forward_preserves_shape_div8 (N cin cout a b : Nat)
    (ha : 1 ≤ a) (hb : 1 ≤ b) :
    UNet.forwardShape cin cout ⟨N, cin, 8 * a, 8 * b⟩ =
      some (⟨N, cout, 8 * a, 8 * b⟩, 0) := by
  have h1 : UNet.conv2dShape cin 64 3 1 ⟨N, cin, 8 * a, 8 * b⟩ =
      some ⟨N, 64, 8 * a, 8 * b⟩ :=
    UNet.conv3x3Shape cin 64 ⟨N, cin, 8 * a, 8 * b⟩ rfl
      (show 1 ≤ 8 * a by omega) (show 1 ≤ 8 * b by omega)
  have h2 : UNet.conv2dShape 64 128 3 1 ⟨N, 64, 8 * a, 8 * b⟩ =
      some ⟨N, 128, 8 * a, 8 * b⟩ :=
    UNet.conv3x3Shape 64 128 ⟨N, 64, 8 * a, 8 * b⟩ rfl
      (show 1 ≤ 8 * a by omega) (show 1 ≤ 8 * b by omega)
  have h3 : UNet.maxPool2dShape 2 2 ⟨N, 128, 8 * a, 8 * b⟩ =
      some ⟨N, 128, 4 * a, 4 * b⟩ :=
    UNet.pool2Shape ⟨N, 128, 8 * a, 8 * b⟩ (4 * a) (4 * b)
      (show 8 * a = 2 * (4 * a) by omega) (show 8 * b = 2 * (4 * b) by omega)
      (by omega) (by omega)
  have h4 : UNet.conv2dShape 128 256 3 1 ⟨N, 128, 4 * a, 4 * b⟩ =
      some ⟨N, 256, 4 * a, 4 * b⟩ :=
    UNet.conv3x3Shape 128 256 ⟨N, 128, 4 * a, 4 * b⟩ rfl
      (show 1 ≤ 4 * a by omega) (show 1 ≤ 4 * b by omega)
  have h5 : UNet.maxPool2dShape 2 2 ⟨N, 256, 4 * a, 4 * b⟩ =
      some ⟨N, 256, 2 * a, 2 * b⟩ :=
    UNet.pool2Shape ⟨N, 256, 4 * a, 4 * b⟩ (2 * a) (2 * b)
      (show 4 * a = 2 * (2 * a) by omega) (show 4 * b = 2 * (2 * b) by omega)
      (show 1 ≤ 2 * a by omega) (show 1 ≤ 2 * b by omega)
  have h6 : UNet.conv2dShape 256 512 3 1 ⟨N, 256, 2 * a, 2 * b⟩ =
      some ⟨N, 512, 2 * a, 2 * b⟩ :=
    UNet.conv3x3Shape 256 512 ⟨N, 256, 2 * a, 2 * b⟩ rfl
      (show 1 ≤ 2 * a by omega) (show 1 ≤ 2 * b by omega)
  have h7 : UNet.maxPool2dShape 2 2 ⟨N, 512, 2 * a, 2 * b⟩ =
      some ⟨N, 512, a, b⟩ :=
    UNet.pool2Shape ⟨N, 512, 2 * a, 2 * b⟩ a b rfl rfl ha hb
  have h8 : UNet.convTranspose2dShape 512 256 2 2 ⟨N, 512, a, b⟩ =
      some ⟨N, 256, 2 * a, 2 * b⟩ :=
    UNet.upconv2Shape 512 256 ⟨N, 512, a, b⟩ (2 * a) (2 * b) rfl rfl rfl ha hb
  have h9 : UNet.catShape ⟨N, 256, 2 * a, 2 * b⟩ ⟨N, 256, 2 * a, 2 * b⟩ =
      some ⟨N, 512, 2 * a, 2 * b⟩ :=
    UNet.catShape_pos ⟨N, 256, 2 * a, 2 * b⟩ ⟨N, 256, 2 * a, 2 * b⟩ rfl rfl rfl
  have h10 : UNet.conv2dShape 512 256 3 1 ⟨N, 512, 2 * a, 2 * b⟩ =
      some ⟨N, 256, 2 * a, 2 * b⟩ :=
    UNet.conv3x3Shape 512 256 ⟨N, 512, 2 * a, 2 * b⟩ rfl
      (show 1 ≤ 2 * a by omega) (show 1 ≤ 2 * b by omega)
  have h11 : UNet.convTranspose2dShape 256 128 2 2 ⟨N, 256, 2 * a, 2 * b⟩ =
      some ⟨N, 128, 4 * a, 4 * b⟩ :=
    UNet.upconv2Shape 256 128 ⟨N, 256, 2 * a, 2 * b⟩ (4 * a) (4 * b) rfl
      (show 4 * a = 2 * (2 * a) by omega) (show 4 * b = 2 * (2 * b) by omega)
      (show 1 ≤ 2 * a by omega) (show 1 ≤ 2 * b by omega)
  have h12 : UNet.catShape ⟨N, 128, 4 * a, 4 * b⟩ ⟨N, 128, 4 * a, 4 * b⟩ =
      some ⟨N, 256, 4 * a, 4 * b⟩ :=
    UNet.catShape_pos ⟨N, 128, 4 * a, 4 * b⟩ ⟨N, 128, 4 * a, 4 * b⟩ rfl rfl rfl
  have h13 : UNet.conv2dShape 256 128 3 1 ⟨N, 256, 4 * a, 4 * b⟩ =
      some ⟨N, 128, 4 * a, 4 * b⟩ :=
    UNet.conv3x3Shape 256 128 ⟨N, 256, 4 * a, 4 * b⟩ rfl
      (show 1 ≤ 4 * a by omega) (show 1 ≤ 4 * b by omega)
  have h14 : UNet.convTranspose2dShape 128 64 2 2 ⟨N, 128, 4 * a, 4 * b⟩ =
      some ⟨N, 64, 8 * a, 8 * b⟩ :=
    UNet.upconv2Shape 128 64 ⟨N, 128, 4 * a, 4 * b⟩ (8 * a) (8 * b) rfl
      (show 8 * a = 2 * (4 * a) by omega) (show 8 * b = 2 * (4 * b) by omega)
      (show 1 ≤ 4 * a by omega) (show 1 ≤ 4 * b by omega)
  have h15 : UNet.catShape ⟨N, 64, 8 * a, 8 * b⟩ ⟨N, 64, 8 * a, 8 * b⟩ =
      some ⟨N, 128, 8 * a, 8 * b⟩ :=
    UNet.catShape_pos ⟨N, 64, 8 * a, 8 * b⟩ ⟨N, 64, 8 * a, 8 * b⟩ rfl rfl rfl
  have h16 : UNet.conv2dShape 128 64 3 1 ⟨N, 128, 8 * a, 8 * b⟩ =
      some ⟨N, 64, 8 * a, 8 * b⟩ :=
    UNet.conv3x3Shape 128 64 ⟨N, 128, 8 * a, 8 * b⟩ rfl
      (show 1 ≤ 8 * a by omega) (show 1 ≤ 8 * b by omega)
  have h17 : UNet.conv2dShape 64 cout 1 0 ⟨N, 64, 8 * a, 8 * b⟩ =
      some ⟨N, cout, 8 * a, 8 * b⟩ :=
    UNet.conv1x1Shape 64 cout ⟨N, 64, 8 * a, 8 * b⟩ rfl
      (show 1 ≤ 8 * a by omega) (show 1 ≤ 8 * b by omega)
  have hEnc : UNet.encoderShape cin ⟨N, cin, 8 * a, 8 * b⟩ =
      some (⟨N, 64, 8 * a, 8 * b⟩, ⟨N, 128, 4 * a, 4 * b⟩,
        ⟨N, 256, 2 * a, 2 * b⟩, ⟨N, 512, a, b⟩) := by
    simp only [UNet.encoderShape, h1, h2, h3, h4, h5, h6, h7,
      Option.some_bind]
  have hD1 : UNet.decoderStageShape 512 256 512 256 ⟨N, 256, 2 * a, 2 * b⟩
      ⟨N, 512, a, b⟩ = some (⟨N, 256, 2 * a, 2 * b⟩, 0) := by
    simp [UNet.decoderStageShape, h8, h9, h10]
  have hD2 : UNet.decoderStageShape 256 128 256 128 ⟨N, 128, 4 * a, 4 * b⟩
      ⟨N, 256, 2 * a, 2 * b⟩ = some (⟨N, 128, 4 * a, 4 * b⟩, 0) := by
    simp [UNet.decoderStageShape, h11, h12, h13]
  have hD3 : UNet.decoderStageShape 128 64 128 64 ⟨N, 64, 8 * a, 8 * b⟩
      ⟨N, 128, 4 * a, 4 * b⟩ = some (⟨N, 64, 8 * a, 8 * b⟩, 0) := by
    simp [UNet.decoderStageShape, h14, h15, h16]
  simp [UNet.forwardShape, UNet.padLastLeftShape, hEnc, hD1, hD2, hD3, h17]

/-- C3 witness: the forward-pass shape theorem instantiated at an input of
shape (2, 5, 8, 16). -/
theorem unet_forward_preserves_shape_div8_witness :
    UNet.forwardShape 5 7 ⟨2, 5, 8 * 1, 8 * 2⟩ =
      some (⟨2, 7, 8 * 1, 8 * 2⟩, 0) :=
  unet_forward_preserves_shape_div8 2 5 7 1 2 (by decide) (by decide)

lemma range_map_sum (n : Nat) (h : Nat → ℚ) :
    ((List.range n).map h).sum = ∑ k ∈ Finset.range n, h k := by
  induction n with
  | zero => simp
  | succ m ih =>
      rw [List.range_succ, List.map_append, List.sum_append,
        Finset.sum_range_succ, ih]
      simp

lemma windowVals_sum (data : GridData) (factor t m i j : Nat) :
    (Utils.windowVals data factor t m i j).sum =
      ∑ di ∈ Finset.range factor, ∑ dj ∈ Finset.range factor,
        data.val t m (i * factor + di) (j * factor + dj) := by
  unfold Utils.windowVals
  rw [List.flatMap, List.sum_flatten, List.map_map]
  rw [show (List.sum ∘ fun di => (List.range factor).map fun dj =>
      data.val t m (i * factor + di) (j * factor + dj)) =
      fun di => ∑ dj ∈ Finset.range factor,
        data.val t m (i * factor + di) (j * factor + dj) from ?_]
  · exact range_map_sum factor _
  · funext di
    exact range_map_sum factor _

lemma windowVals_length (data : GridData) (factor t m i j : Nat) :
    (Utils.windowVals data factor t m i j).length = factor * factor := by
  unfold Utils.windowVals
  rw [List.length_flatMap]
  rw [show ((List.length ∘ fun di => (List.range factor).map fun dj =>
      data.val t m (i * factor + di) (j * factor + dj))) =
      fun _ => factor from ?_]
  · rw [show ((List.range factor).map fun _ => factor) =
        List.replicate factor factor from ?_]
    · rw [List.sum_replicate, smul_eq_mul]
    · rw [List.eq_replicate_iff]
      refine ⟨by simp, ?_⟩
      intro x hx
      simp only [List.mem_map] at hx
      obtain ⟨k, -, hk⟩ := hx
      exact hk.symm
  · funext di
    simp

lemma np_mean_windowVals_eq_blockMean (data : GridData) (factor t m i j : Nat) :
    Utils.np_mean (Utils.windowVals data factor t m i j) =
      blockMean data factor t m i j := by
  rw [Utils.np_mean, windowVals_sum, windowVals_length, blockMean,
    Finset.sum_product, Finset.card_product, Finset.card_range]

lemma downscale_data_eq_aux (data : GridData) (factor : Nat) :
    TrainCnn.downscale_data data factor = Utils.downscale_data data factor := by
  unfold TrainCnn.downscale_data Utils.downscale_data
  by_cases h : factor ∣ data.height ∧ factor ∣ data.ncells
  · rw [if_pos h, if_pos h]
    refine congrArg some ?_
    congr 1
    funext t m i j
    rw [np_mean_windowVals_eq_blockMean, blockMean, Finset.sum_product,
      Finset.card_product, Finset.card_range]
    push_cast
    ring
  · rw [if_neg h, if_neg h]

/-- C9: the two implementations of `downscale_data` — `train_cnn.py`
using `coarsen(...).mean()` and `utils.py` using
`coarsen(...).reduce(np.mean)` — compute the same result for every input
dataset and factor for which either is defined (both are defined exactly
when the factor divides both coarsened dimension sizes, and they then
agree cell by cell). -/
theorem downscale_data_implementations_agree (data : GridData)
    (factor : Nat) :
    TrainCnn.downscale_data data factor = Utils.downscale_data data factor :=
  downscale_data_eq_aux data factor

/-- C7: on a dataset whose height and ncells sizes are divisible by the
factor, `downscale_data` (either implementation) yields a dataset whose
height and ncells sizes are the originals divided by the factor, whose
time and member sizes are unchanged, and whose every cell is the
arithmetic mean of the corresponding `factor x factor` block of input
cells. -/
theorem downscale_data_is_blockMean (data : GridData) (factor : Nat)
    (hh : factor ∣ data.height) (hc : factor ∣ data.ncells) :
    ∃ d : GridData,
      Utils.downscale_data data factor = some d ∧
      TrainCnn.downscale_data data factor = some d ∧
      d.time = data.time ∧ d.member = data.member ∧
      d.height = data.height / factor ∧ d.ncells = data.ncells / factor ∧
      ∀ t m i j, d.val t m i j = blockMean data factor t m i j := by
  refine ⟨{ time := data.time
            member := data.member
            height := data.height / factor
            ncells := data.ncells / factor
            val := fun t m i j =>
              Utils.np_mean (Utils.windowVals data factor t m i j) },
    ?_, ?_, rfl, rfl, rfl, rfl, ?_⟩
  · rw [Utils.downscale_data, if_pos ⟨hh, hc⟩]
  · rw [downscale_data_eq_aux, Utils.downscale_data, if_pos ⟨hh, hc⟩]
  · intro t m i j
    exact np_mean_windowVals_eq_blockMean data factor t m i j

/-- C7 witness: the block-mean theorem instantiated at `gridEx` with
factor 2. -/
theorem downscale_data_is_blockMean_witness :
    ∃ d : GridData,
      Utils.downscale_data gridEx 2 = some d ∧
      TrainCnn.downscale_data gridEx 2 = some d ∧
      d.time = gridEx.time ∧ d.member = gridEx.member ∧
      d.height = gridEx.height / 2 ∧ d.ncells = gridEx.ncells / 2 ∧
      ∀ t m i j, d.val t m i j = blockMean gridEx 2 t m i j :=
  downscale_data_is_blockMean gridEx 2 (by decide) (by decide)

/-- C4: `get_runs` raises `ValueError` exactly when the
`mlflow.search_runs` result for the experiment is empty, and otherwise
returns the search result unchanged; the model is a single search with
no retry. -/
theorem get_runs_error_iff_empty {α : Type} (experiment_name : String)
    (search_result : List α) :
    (search_result = [] →
      Utils.get_runs experiment_name search_result =
        Except.error ("No runs found in experiment: " ++ experiment_name)) ∧
    (search_result ≠ [] →
      Utils.get_runs experiment_name search_result =
        Except.ok search_result) := by
  constructor
  · intro h
    subst h
    rfl
  · intro h
    rw [Utils.get_runs, if_neg]
    simpa using h

/-- C4 witness: `get_runs` on an empty search result errors, and on the
one-element search result `[3]` returns it unchanged. -/
theorem get_runs_error_iff_empty_witness :
    Utils.get_runs "WGN" ([] : List Nat) =
      Except.error ("No runs found in experiment: " ++ "WGN") ∧
    Utils.get_runs "WGN" [3] = Except.ok [3] :=
  ⟨(get_runs_error_iff_empty "WGN" ([] : List Nat)).1 rfl,
   (get_runs_error_iff_empty "WGN" [3]).2 (by decide)⟩

/-- C5: `load_config_and_data` applies `downscale_data` with the
configured factor to both the training and the test dataset exactly when
the configuration's `"coarsen"` value is greater than 1; when it is 1 or
less both datasets are returned exactly as loaded. -/
theorem load_config_and_data_coarsen_iff (config : Utils.Config)
    (dtr dte : GridData) :
    (1 < config.coarsen →
      ∀ dtr2 dte2 : GridData,
        Utils.downscale_data dtr config.coarsen.toNat = some dtr2 →
        Utils.downscale_data dte config.coarsen.toNat = some dte2 →
        Utils.load_config_and_data config dtr dte =
          some (config, dtr2, dte2)) ∧
    (config.coarsen ≤ 1 →
      Utils.load_config_and_data config dtr dte =
        some (config, dtr, dte)) := by
  constructor
  · intro h dtr2 dte2 h1 h2
    rw [Utils.load_config_and_data, if_pos h, h2, Option.some_bind, h1,
      Option.some_bind]
  · intro h
    rw [Utils.load_config_and_data, if_neg (by omega)]

/-- C5 witness: with `"coarsen" = 2` both datasets come back coarsened,
and with `"coarsen" = 1` both come back exactly as loaded. -/
theorem load_config_and_data_coarsen_iff_witness :
    Utils.load_config_and_data ⟨2⟩ gridEx gridEx =
      some (⟨2⟩, gridExDs, gridExDs) ∧
    Utils.load_config_and_data ⟨1⟩ gridEx gridEx =
      some (⟨1⟩, gridEx, gridEx) :=
  ⟨(load_config_and_data_coarsen_iff ⟨2⟩ gridEx gridEx).1 (by decide)
      gridExDs gridExDs rfl rfl,
   (load_config_and_data_coarsen_iff ⟨1⟩ gridEx gridEx).2 (by decide)⟩

/-- C6: when `member_indices` is a permutation of `0, ..., n-1` (the
shuffled `np.arange(n)`) and `0 ≤ split ≤ n`, `MyDataset.__init__`
partitions the member indices: `train_indices` has exactly `split`
elements, `test_indices` has the remaining `n - split`, their
concatenation is a permutation of `{0, ..., n-1}`, and the two are
disjoint — so every `__getitem__` call pairs input members
(`train_indices`) with the disjoint remaining target members
(`test_indices`). -/
theorem mydataset_member_partition (num_members split : Nat)
    (member_indices : List Nat)
    (hperm : List.Perm member_indices (List.range num_members))
    (hsplit : split ≤ num_members) :
    (MyDataset.init member_indices split).train_indices.length = split ∧
    (MyDataset.init member_indices split).test_indices.length
        = num_members - split ∧
    List.Perm ((MyDataset.init member_indices split).train_indices ++
        (MyDataset.init member_indices split).test_indices)
      (List.range num_members) ∧
    ∀ x ∈ (MyDataset.init member_indices split).train_indices,
      x ∉ (MyDataset.init member_indices split).test_indices := by
  have hlen : member_indices.length = num_members := by
    simpa using hperm.length_eq
  have hnd : member_indices.Nodup :=
    hperm.symm.nodup (List.nodup_range num_members)
  refine ⟨?_, ?_, ?_, ?_⟩
  · simp [MyDataset.init, hlen, hsplit]
  · simp [MyDataset.init, hlen]
  · rw [MyDataset.init]
    dsimp only
    rw [List.take_append_drop]
    exact hperm
  · intro x hx hx'
    exact List.disjoint_take_drop hnd le_rfl hx hx'

/-- C6 witness: the partition theorem instantiated with the shuffled
member indices `[2, 0, 1]` of a 3-member ensemble and split 2. -/
theorem mydataset_member_partition_witness :
    (MyDataset.init [2, 0, 1] 2).train_indices.length = 2 ∧
    (MyDataset.init [2, 0, 1] 2).test_indices.length = 3 - 2 ∧
    List.Perm ((MyDataset.init [2, 0, 1] 2).train_indices ++
        (MyDataset.init [2, 0, 1] 2).test_indices) (List.range 3) ∧
    ∀ x ∈ (MyDataset.init [2, 0, 1] 2).train_indices,
      x ∉ (MyDataset.init [2, 0, 1] 2).test_indices :=
  mydataset_member_partition 3 2 [2, 0, 1] (by decide) (by decide)

/-- C8: `EnsembleVarianceRegularizationLoss.forward` returns
`mean(|outputs - target|) - alpha * mean(Var(outputs, dim 1))`, the L1
loss minus `alpha` times the mean ensemble variance. -/
theorem ensemble_variance_loss_formula (alpha : ℚ)
    (outputs target : Tensor4) :
    EnsembleVarianceRegularizationLoss.forward alpha outputs target =
      torchMean (tAbs (tSub outputs target)) -
        alpha * torchMean3 (torchVarDim1 outputs) := by
  unfold EnsembleVarianceRegularizationLoss.forward
  ring

/-- C10 counterexample: the mask `maskPm` has a nonzero entry, yet
`torch.sum(mask)` is 0, so `MaskedLoss.forward`'s divisor vanishes and
the claimed implication fails at this input. -/
theorem masked_loss_nonzero_counterexample :
    (∃ p ∈ maskPm.idx, maskPm.vAt p ≠ 0) ∧ torchSum maskPm = 0 := by
  constructor
  · refine ⟨(0, 0, 0, 0), by decide, ?_⟩
    norm_num [maskPm, Tensor4.vAt]
  · norm_num [torchSum, Tensor4.idx, maskPm, Tensor4.vAt,
      Finset.sum_product, Finset.sum_range_succ]

/-- C10 amended: for an indicator mask (every entry 0 or 1, as produced
by the caller's boolean-to-float cast) with at least one entry equal
to 1, and an elementwise loss of the same shape as the mask, the divisor
`torch.sum(mask)` is nonzero and `MaskedLoss.forward` returns the mean
of the elementwise loss over the unmasked cells: the sum of the loss
over the cells where the mask is 1, divided by how many there are. -/
theorem masked_loss_indicator_mask (loss_fn : Tensor4 → Tensor4 → Tensor4)
    (outputs target mask : Tensor4)
    (hn : (loss_fn outputs target).n = mask.n)
    (hc : (loss_fn outputs target).c = mask.c)
    (hh : (loss_fn outputs target).h = mask.h)
    (hw : (loss_fn outputs target).w = mask.w)
    (h01 : ∀ p ∈ mask.idx, mask.vAt p = 0 ∨ mask.vAt p = 1)
    (hone : ∃ p ∈ mask.idx, mask.vAt p = 1) :
    torchSum mask ≠ 0 ∧
    MaskedLoss.forward loss_fn outputs target mask =
      (∑ p ∈ mask.idx.filter (fun p => mask.vAt p = 1),
        (loss_fn outputs target).vAt p) /
      (((mask.idx.filter (fun p => mask.vAt p = 1)).card : ℚ)) := by
  have hmasksum : torchSum mask =
      ((mask.idx.filter (fun p => mask.vAt p = 1)).card : ℚ) := by
    rw [torchSum,
      ← Finset.sum_filter_add_sum_filter_not mask.idx
        (fun p => mask.vAt p = 1)]
    have h1 : ∑ p ∈ mask.idx.filter (fun p => mask.vAt p = 1),
        mask.vAt p =
        ((mask.idx.filter (fun p => mask.vAt p = 1)).card : ℚ) := by
      rw [Finset.sum_congr rfl
        (fun p hp => (Finset.mem_filter.mp hp).2), Finset.sum_const,
        nsmul_eq_mul, mul_one]
    have h2 : ∑ p ∈ mask.idx.filter (fun p => ¬ mask.vAt p = 1),
        mask.vAt p = 0 := by
      refine Finset.sum_eq_zero ?_
      intro p hp
      obtain ⟨hpm, hne⟩ := Finset.mem_filter.mp hp
      rcases h01 p hpm with h | h
      · exact h
      · exact absurd h hne
    rw [h1, h2, add_zero]
  have hcard : 0 < (mask.idx.filter (fun p => mask.vAt p = 1)).card := by
    obtain ⟨p, hpm, hp1⟩ := hone
    exact Finset.card_pos.mpr ⟨p, Finset.mem_filter.mpr ⟨hpm, hp1⟩⟩
  have hnz : torchSum mask ≠ 0 := by
    rw [hmasksum]
    exact_mod_cast hcard.ne'
  refine ⟨hnz, ?_⟩
  have hidx : (loss_fn outputs target).idx = mask.idx := by
    rw [Tensor4.idx, Tensor4.idx, hn, hc, hh, hw]
  have hnum : torchSum (tMul (loss_fn outputs target) mask) =
      ∑ p ∈ mask.idx.filter (fun p => mask.vAt p = 1),
        (loss_fn outputs target).vAt p := by
    have hidx2 : (tMul (loss_fn outputs target) mask).idx = mask.idx := by
      rw [← hidx]
      rfl
    have hv : ∀ p ∈ mask.idx,
        (tMul (loss_fn outputs target) mask).vAt p =
          (loss_fn outputs target).vAt p * mask.vAt p :=
      fun p _ => rfl
    rw [torchSum, hidx2, Finset.sum_congr rfl hv,
      ← Finset.sum_filter_add_sum_filter_not mask.idx
        (fun p => mask.vAt p = 1)]
    have h3 : ∑ p ∈ mask.idx.filter (fun p => mask.vAt p = 1),
        (loss_fn outputs target).vAt p * mask.vAt p =
        ∑ p ∈ mask.idx.filter (fun p => mask.vAt p = 1),
          (loss_fn outputs target).vAt p := by
      refine Finset.sum_congr rfl ?_
      intro p hp
      rw [(Finset.mem_filter.mp hp).2, mul_one]
    have h4 : ∑ p ∈ mask.idx.filter (fun p => ¬ mask.vAt p = 1),
        (loss_fn outputs target).vAt p * mask.vAt p = 0 := by
      refine Finset.sum_eq_zero ?_
      intro p hp
      obtain ⟨hpm, hne⟩ := Finset.mem_filter.mp hp
      rcases h01 p hpm with h | h
      · rw [h, mul_zero]
      · exact absurd h hne
    rw [h3, h4, add_zero]
  simp only [MaskedLoss.forward]
  rw [hnum, hmasksum]

/-- C10 witness: the indicator-mask theorem instantiated at the concrete
loss, outputs, target and mask. -/
theorem masked_loss_indicator_mask_witness :
    torchSum maskEx ≠ 0 ∧
    MaskedLoss.forward lossFnEx outEx tgtEx maskEx =
      (∑ p ∈ maskEx.idx.filter (fun p => maskEx.vAt p = 1),
        (lossFnEx outEx tgtEx).vAt p) /
      (((maskEx.idx.filter (fun p => maskEx.vAt p = 1)).card : ℚ)) :=
  masked_loss_indicator_mask lossFnEx outEx tgtEx maskEx rfl rfl rfl rfl
    (by decide) ⟨(0, 0, 0, 0), by decide, rfl⟩
